import Mathlib

/-!
Verification of the logical core of `src/Game.js`: the mulberry32 RNG,
the seeded track generator, the car spawn function, the per-frame
kinematic step, and the React effect lifecycle of the `Game` component.

Shallow embedding conventions:
* JavaScript numbers holding integers are modelled by `Nat`; every JS
  bitwise operation coerces its operands through ToInt32/ToUint32, whose
  bit pattern is the operand taken modulo 2^32, so each bitwise step is
  followed by (or performed on) a value reduced `% U32`.
* The RNG closure that mutates a captured `seed` variable becomes explicit
  state passing: `mulberry32Next` maps a state to the next state and the
  drawn 32-bit value.  The JS accumulator `seed += 0x6d2b79f5` does not
  wrap, so the state is an unbounded `Nat`.
* Real-valued arithmetic (divisions, `Math.cos`, `Math.sin`, `Math.atan2`)
  is modelled over `ℝ`.
-/

namespace Game

/-- 2^32: modulus of JavaScript 32-bit coercions (ToInt32 / ToUint32). -/
def U32 : Nat := 4294967296

/-- The mulberry32 additive constant 0x6d2b79f5. -/
def MAGIC : Nat := 0x6d2b79f5

/-- Source: `const TAU = Math.PI * 2`. -/
noncomputable def TAU : ℝ := Real.pi * 2

/-- The bit pattern of `Math.imul(a, b)` for operands given as unsigned
32-bit patterns: the product modulo 2^32. -/
def imul (a b : Nat) : Nat := a * b % U32

/-- Body of the mulberry32 draw (source lines 12-15), acting on the current
accumulator value reduced modulo 2^32 (all JS bitwise operators coerce
through 32 bits, so the draw depends only on that residue):
`t = Math.imul(t ^ (t >>> 15), t | 1);
 t ^= t + Math.imul(t ^ (t >>> 7), t | 61);
 return ((t ^ (t >>> 14)) >>> 0) / 4294967296` — this returns the
numerator, the final `>>> 0` pattern. -/
def mix (t0 : Nat) : Nat :=
  let t1 := imul (t0 ^^^ (t0 >>> 15)) (t0 ||| 1)
  let t2 := t1 ^^^ ((t1 + imul (t1 ^^^ (t1 >>> 7)) (t1 ||| 61)) % U32)
  (t2 ^^^ (t2 >>> 14)) % U32

/-- One draw of the closure returned by `mulberry32(seed)`: the captured
accumulator is incremented by 0x6d2b79f5 as an unwrapped JS number, and the
drawn 32-bit value is computed from its 32-bit residue. -/
def mulberry32Next (s : Nat) : Nat × Nat :=
  let s1 := s + MAGIC
  (s1, mix (s1 % U32))

/-- Modelled from the spec: a reference mulberry32 implementation whose
counter is kept in 32-bit wraparound integer arithmetic, as in
"PROVIDED the same 32-bit integer arithmetic (wraparound on overflow,
specific bit-mixing constants and shift/XOR/multiply sequence) is
reproduced bit-for-bit". -/
def refNext (s : Nat) : Nat × Nat :=
  let s1 := (s + MAGIC) % U32
  (s1, mix s1)

/-- RNG accumulator after `n` draws, as the JS code computes it. -/
def jsRngState (seed : Nat) : Nat → Nat
  | 0 => seed
  | n + 1 => (mulberry32Next (jsRngState seed n)).1

/-- The `n`-th (0-indexed) 32-bit draw of the JS code. -/
def jsRngOut (seed n : Nat) : Nat := (mulberry32Next (jsRngState seed n)).2

/-- Counter of the wraparound reference implementation after `n` draws. -/
def refRngState (seed : Nat) : Nat → Nat
  | 0 => seed
  | n + 1 => (refNext (refRngState seed n)).1

/-- The `n`-th (0-indexed) 32-bit draw of the wraparound reference. -/
def refRngOut (seed n : Nat) : Nat := (refNext (refRngState seed n)).2

/-- The float a draw returns: `numerator / 4294967296`, in `[0,1)`. -/
noncomputable def rngFloat (u : Nat) : ℝ := (u : ℝ) / 4294967296

/-- A 2D point `{ x, y }`. -/
structure Pt where
  x : ℝ
  y : ℝ
deriving Inhabited

/-- The bounding box `{ minX, maxX, minY, maxY }`. -/
structure Bounds where
  minX : ℝ
  maxX : ℝ
  minY : ℝ
  maxY : ℝ

/-- The value `{ poly, bounds, halfW }` returned by `generateTrack`. -/
structure Track where
  poly : List Pt
  bounds : Bounds
  halfW : ℝ

/-- `Math.min(...xs)` over a non-empty argument list (the only way the code
calls it; `Math.min()` of an empty spread would be `Infinity`). -/
def jsMin : List ℝ → ℝ
  | [] => 0
  | a :: l => l.foldl min a

/-- `Math.max(...xs)` over a non-empty argument list. -/
def jsMax : List ℝ → ℝ
  | [] => 0
  | a :: l => l.foldl max a

/-- Body of the generator loop for index `i`, given the base radius and the
32-bit draw `u` consumed at this iteration:
`a = (i / N) * TAU; r = radius + rng() * 100 - 50;
 poly.push({ x: Math.cos(a) * r, y: Math.sin(a) * r })` with `N = 100`. -/
noncomputable def trackPoint (radius : ℝ) (i : Nat) (u : Nat) : Pt :=
  let a := ((i : ℝ) / 100) * TAU
  let r := radius + rngFloat u * 100 - 50
  ⟨Real.cos a * r, Real.sin a * r⟩

/-- The generator loop `for (let i = 0; i < N; i++) ...`, threading the RNG
state `s`; `i` is the current index and `k` the number of remaining
iterations. -/
noncomputable def trackPointsAux (radius : ℝ) : Nat → Nat → Nat → List Pt
  | _, _, 0 => []
  | s, i, k + 1 =>
      let s1 := (mulberry32Next s).1
      let u := (mulberry32Next s).2
      trackPoint radius i u :: trackPointsAux radius s1 (i + 1) k

/-- Source `generateTrack(seed)` (lines 20-38): one draw for the base
radius, one draw per point, then the bounding box and constant half
width. -/
noncomputable def generateTrack (seed : Nat) : Track :=
  let s1 := (mulberry32Next seed).1
  let u0 := (mulberry32Next seed).2
  let radius := 300 + rngFloat u0 * 300
  let poly := trackPointsAux radius s1 0 100
  { poly := poly
    bounds :=
      { minX := jsMin (poly.map Pt.x)
        maxX := jsMax (poly.map Pt.x)
        minY := jsMin (poly.map Pt.y)
        maxY := jsMax (poly.map Pt.y) }
    halfW := 40 }

/-- The car state `{ x, y, yaw, v, delta, radius }`. -/
structure Car where
  x : ℝ
  y : ℝ
  yaw : ℝ
  v : ℝ
  delta : ℝ
  radius : ℝ

/-- `Math.atan2(y, x)`: the argument of the complex number `x + y*i`
(in `(-π, π]`, with `atan2(0, 0) = 0`). -/
noncomputable def atan2 (y x : ℝ) : ℝ := Complex.arg ⟨x, y⟩

/-- Source `makeCar(track)` (lines 41-46).  The source indexes
`track.poly[0]` and `track.poly[1]` directly; out-of-range indexing is
modelled by the default point. -/
noncomputable def makeCar (track : Track) : Car :=
  let s0 := track.poly.getD 0 default
  let s1 := track.poly.getD 1 default
  let yaw := -atan2 (s1.y - s0.y) (s1.x - s0.x) + Real.pi / 2
  { x := s0.x, y := s0.y, yaw := yaw, v := 0, delta := 0, radius := 15 }

/-- Snapshot of the input latch `keys.current` for the four arrow keys. -/
structure Keys where
  arrowUp : Bool
  arrowDown : Bool
  arrowLeft : Bool
  arrowRight : Bool

/-- The latch with no key held. -/
def noKeys : Keys := ⟨false, false, false, false⟩

/-- One simulation step on the car (source lines 101-110), in the fixed
source order: accelerate, decelerate, steer left, steer right, damping
`v *= 0.98`, then Euler position integration with the updated yaw and the
post-damping speed. -/
noncomputable def step (keys : Keys) (dt : ℝ) (car : Car) : Car :=
  let v1 := if keys.arrowUp then car.v + 100 * dt else car.v
  let v2 := if keys.arrowDown then v1 - 100 * dt else v1
  let yaw1 := if keys.arrowLeft then car.yaw - 2 * dt else car.yaw
  let yaw2 := if keys.arrowRight then yaw1 + 2 * dt else yaw1
  let v3 := v2 * 0.98
  { car with
      v := v3
      yaw := yaw2
      x := car.x + Real.sin yaw2 * v3 * dt
      y := car.y - Real.cos yaw2 * v3 * dt }

/-- Which callbacks the `Game` component currently has registered with the
host: the two keyboard listeners and the pending `requestAnimationFrame`
callback. -/
structure Listeners where
  keydown : Bool
  keyup : Bool
  rafPending : Bool

/-- Setup of the keyboard effect (lines 84-88): registers `keydown` and
`keyup` listeners. -/
def keyboardMount (s : Listeners) : Listeners :=
  { s with keydown := true, keyup := true }

/-- Cleanup returned by the keyboard effect (lines 89-92): removes both
keyboard listeners. -/
def keyboardCleanup (s : Listeners) : Listeners :=
  { s with keydown := false, keyup := false }

/-- Setup of the game-loop effect (lines 96-125): schedules the frame
callback via `requestAnimationFrame(step)`. -/
def loopMount (s : Listeners) : Listeners :=
  { s with rafPending := true }

/-- Cleanup of the game-loop effect: the effect body returns no cleanup
function (its last statement is `requestAnimationFrame(step)`), so React
runs nothing on teardown and the scheduled callback stays registered. -/
def loopCleanup (s : Listeners) : Listeners := s

/-- Registrations performed on mount of the `Game` component: both effects
run their setup. -/
def gameMount (s : Listeners) : Listeners := loopMount (keyboardMount s)

/-- Deregistrations performed on unmount: each effect's cleanup runs. -/
def gameUnmount (s : Listeners) : Listeners := loopCleanup (keyboardCleanup s)

lemma jsRngState_eq (seed n : Nat) : jsRngState seed n = seed + n * MAGIC := by
  induction n with
  | zero => simp [jsRngState]
  | succ n ih =>
      simp only [jsRngState, mulberry32Next, ih, Nat.succ_mul]
      ring

lemma refRngState_eq (seed : Nat) (h : seed < U32) (n : Nat) :
    refRngState seed n = (seed + n * MAGIC) % U32 := by
  induction n with
  | zero => simp [refRngState, Nat.mod_eq_of_lt h]
  | succ n ih =>
      simp only [refRngState, refNext, ih, Nat.succ_mul]
      rw [Nat.mod_add_mod, Nat.add_assoc]

lemma mix_lt (t : Nat) : mix t < U32 := by
  have h : 0 < U32 := by norm_num [U32]
  unfold mix
  exact Nat.mod_lt _ h

lemma mulberry32Next_snd_lt (s : Nat) : (mulberry32Next s).2 < U32 := mix_lt _

lemma rngFloat_nonneg (u : Nat) : 0 ≤ rngFloat u :=
  div_nonneg (Nat.cast_nonneg u) (by norm_num)

lemma rngFloat_lt_one {u : Nat} (h : u < U32) : rngFloat u < 1 := by
  rw [rngFloat, div_lt_one (by norm_num)]
  have h2 : (u : ℝ) < ((U32 : Nat) : ℝ) := by exact_mod_cast h
  simpa [U32] using h2

lemma trackPointsAux_length (radius : ℝ) :
    ∀ (s i k : Nat), (trackPointsAux radius s i k).length = k := by
  intro s i k
  induction k generalizing s i with
  | zero => simp [trackPointsAux]
  | succ k ih => simp [trackPointsAux, ih]

lemma mem_trackPointsAux {radius : ℝ} {p : Pt} :
    ∀ {s i k : Nat}, p ∈ trackPointsAux radius s i k →
      ∃ j u, u < U32 ∧ p = trackPoint radius j u := by
  intro s i k
  induction k generalizing s i with
  | zero => simp [trackPointsAux]
  | succ k ih =>
      intro h
      simp only [trackPointsAux, List.mem_cons] at h
      rcases h with h | h
      · exact ⟨i, (mulberry32Next s).2, mulberry32Next_snd_lt s, h⟩
      · exact ih h

lemma foldl_min_le_init : ∀ (l : List ℝ) (a : ℝ), l.foldl min a ≤ a := by
  intro l
  induction l with
  | nil => intro a; simp
  | cons b t ih => intro a; exact le_trans (ih (min a b)) (min_le_left a b)

lemma foldl_min_le : ∀ (l : List ℝ) (a x : ℝ), x ∈ a :: l → l.foldl min a ≤ x := by
  intro l
  induction l with
  | nil =>
      intro a x hx
      rw [List.mem_singleton] at hx
      simp [hx]
  | cons b t ih =>
      intro a x hx
      rcases List.mem_cons.mp hx with rfl | hx2
      · exact le_trans (foldl_min_le_init t (min x b)) (min_le_left x b)
      · rcases List.mem_cons.mp hx2 with rfl | hx3
        · exact le_trans (foldl_min_le_init t (min a x)) (min_le_right a x)
        · exact ih (min a b) x (List.mem_cons_of_mem _ hx3)

lemma foldl_min_mem : ∀ (l : List ℝ) (a : ℝ), l.foldl min a ∈ a :: l := by
  intro l
  induction l with
  | nil => intro a; simp
  | cons b t ih =>
      intro a
      rcases List.mem_cons.mp (ih (min a b)) with h | h
      · rcases min_choice a b with h2 | h2 <;> rw [List.foldl_cons, h, h2]
        · exact List.mem_cons_self a _
        · exact List.mem_cons_of_mem _ (List.mem_cons_self b _)
      · exact List.mem_cons_of_mem _ (List.mem_cons_of_mem _ h)

lemma foldl_max_ge_init : ∀ (l : List ℝ) (a : ℝ), a ≤ l.foldl max a := by
  intro l
  induction l with
  | nil => intro a; simp
  | cons b t ih => intro a; exact le_trans (le_max_left a b) (ih (max a b))

lemma foldl_max_ge : ∀ (l : List ℝ) (a x : ℝ), x ∈ a :: l → x ≤ l.foldl max a := by
  intro l
  induction l with
  | nil =>
      intro a x hx
      rw [List.mem_singleton] at hx
      simp [hx]
  | cons b t ih =>
      intro a x hx
      rcases List.mem_cons.mp hx with rfl | hx2
      · exact le_trans (le_max_left x b) (foldl_max_ge_init t (max x b))
      · rcases List.mem_cons.mp hx2 with rfl | hx3
        · exact le_trans (le_max_right a x) (foldl_max_ge_init t (max a x))
        · exact ih (max a b) x (List.mem_cons_of_mem _ hx3)

lemma foldl_max_mem : ∀ (l : List ℝ) (a : ℝ), l.foldl max a ∈ a :: l := by
  intro l
  induction l with
  | nil => intro a; simp
  | cons b t ih =>
      intro a
      rcases List.mem_cons.mp (ih (max a b)) with h | h
      · rcases max_choice a b with h2 | h2 <;> rw [List.foldl_cons, h, h2]
        · exact List.mem_cons_self a _
        · exact List.mem_cons_of_mem _ (List.mem_cons_self b _)
      · exact List.mem_cons_of_mem _ (List.mem_cons_of_mem _ h)

lemma jsMin_spec (l : List ℝ) (h : l ≠ []) :
    jsMin l ∈ l ∧ ∀ x ∈ l, jsMin l ≤ x := by
  cases l with
  | nil => exact absurd rfl h
  | cons a t =>
      refine ⟨foldl_min_mem t a, ?_⟩
      intro x hx
      exact foldl_min_le t a x hx

lemma jsMax_spec (l : List ℝ) (h : l ≠ []) :
    jsMax l ∈ l ∧ ∀ x ∈ l, x ≤ jsMax l := by
  cases l with
  | nil => exact absurd rfl h
  | cons a t =>
      refine ⟨foldl_max_mem t a, ?_⟩
      intro x hx
      exact foldl_max_ge t a x hx

lemma generateTrack_poly_length (seed : Nat) :
    (generateTrack seed).poly.length = 100 := by
  simp [generateTrack, trackPointsAux_length]

lemma generateTrack_poly_ne_nil (seed : Nat) : (generateTrack seed).poly ≠ [] := by
  intro h
  have := generateTrack_poly_length seed
  rw [h] at this
  simp at this

/-- Claim C2: the mulberry32 draws depend only on the accumulator modulo
2^32, so although the code increments an unwrapped numeric accumulator,
for every 32-bit seed and every number of draws the produced sequence of
outputs equals bit-for-bit the sequence of a reference implementation
keeping the counter in 32-bit wraparound arithmetic. -/
theorem mulberry32_refines_wraparound (seed : Nat) (h : seed < U32) (n : Nat) :
    jsRngOut seed n = refRngOut seed n := by
  simp only [jsRngOut, refRngOut, mulberry32Next, refNext,
    jsRngState_eq, refRngState_eq seed h, Nat.mod_add_mod]

/-- Witness for C2 at seed 42 and draw index 3. -/
theorem mulberry32_refines_wraparound_witness :
    42 < U32 ∧ jsRngOut 42 3 = refRngOut 42 3 :=
  ⟨by decide, mulberry32_refines_wraparound 42 (by decide) 3⟩

/-- Claim C1: track generation is pure and deterministic — two calls of
`generateTrack` with the same seed yield identical results in every field:
the same polygon point sequence, the same bounds, and the same half
width. -/
theorem generateTrack_deterministic (s1 s2 : Nat) (h : s1 = s2) :
    (generateTrack s1).poly = (generateTrack s2).poly ∧
    (generateTrack s1).bounds = (generateTrack s2).bounds ∧
    (generateTrack s1).halfW = (generateTrack s2).halfW := by
  subst h
  exact ⟨rfl, rfl, rfl⟩

/-- Witness for C1 at seed 42. -/
theorem generateTrack_deterministic_witness :
    42 = 42 ∧
    ((generateTrack 42).poly = (generateTrack 42).poly ∧
      (generateTrack 42).bounds = (generateTrack 42).bounds ∧
      (generateTrack 42).halfW = (generateTrack 42).halfW) :=
  ⟨rfl, generateTrack_deterministic 42 42 rfl⟩

/-- Claim C7: for every seed, the polygon of the generated track has
exactly 100 points. -/
theorem generateTrack_point_count (seed : Nat) :
    (generateTrack seed).poly.length = 100 :=
  generateTrack_poly_length seed

/-- Claim C3: every point of the generated polygon lies at Euclidean
distance in `[250, 700)` from the origin: the base radius lies in
`[300, 600)` and each per-point radial perturbation in `[-50, 50)`. -/
theorem generateTrack_radius_bounds (seed : Nat) (p : Pt)
    (h : p ∈ (generateTrack seed).poly) :
    250 ≤ Real.sqrt (p.x ^ 2 + p.y ^ 2) ∧ Real.sqrt (p.x ^ 2 + p.y ^ 2) < 700 := by
  have h2 : p ∈ trackPointsAux (300 + rngFloat ((mulberry32Next seed).2) * 300)
      ((mulberry32Next seed).1) 0 100 := h
  obtain ⟨j, u, hu, rfl⟩ := mem_trackPointsAux h2
  have hu0 := mulberry32Next_snd_lt seed
  have h0a := rngFloat_nonneg ((mulberry32Next seed).2)
  have h0b := rngFloat_lt_one hu0
  have h1a := rngFloat_nonneg u
  have h1b := rngFloat_lt_one hu
  set radius := 300 + rngFloat ((mulberry32Next seed).2) * 300 with hradius
  set r := radius + rngFloat u * 100 - 50 with hr
  have hx : (trackPoint radius j u).x = Real.cos (((j : ℝ) / 100) * TAU) * r := rfl
  have hy : (trackPoint radius j u).y = Real.sin (((j : ℝ) / 100) * TAU) * r := rfl
  have hr1 : 250 ≤ r := by rw [hr, hradius]; linarith
  have hr2 : r < 700 := by rw [hr, hradius]; linarith
  have hsum : (trackPoint radius j u).x ^ 2 + (trackPoint radius j u).y ^ 2 = r ^ 2 := by
    rw [hx, hy]
    have hpyth := Real.sin_sq_add_cos_sq (((j : ℝ) / 100) * TAU)
    nlinarith [hpyth]
  rw [hsum, Real.sqrt_sq (by linarith)]
  exact ⟨hr1, hr2⟩

/-- Witness for C3: the first polygon point of the track for seed 0. -/
theorem generateTrack_radius_bounds_witness :
    (generateTrack 0).poly.head! ∈ (generateTrack 0).poly ∧
    (250 ≤ Real.sqrt ((generateTrack 0).poly.head!.x ^ 2 + (generateTrack 0).poly.head!.y ^ 2) ∧
      Real.sqrt ((generateTrack 0).poly.head!.x ^ 2 + (generateTrack 0).poly.head!.y ^ 2) < 700) :=
  have hmem : (generateTrack 0).poly.head! ∈ (generateTrack 0).poly :=
    List.head!_mem_self (generateTrack_poly_ne_nil 0)
  ⟨hmem, generateTrack_radius_bounds 0 _ hmem⟩

/-- Claim C6: the generated bounds are the tight axis-aligned bounding box
of the polygon — every point lies within them, and each of the four
extremes is attained by some polygon point. -/
theorem generateTrack_bounds_tight (seed : Nat) :
    (∀ p ∈ (generateTrack seed).poly,
        (generateTrack seed).bounds.minX ≤ p.x ∧
        p.x ≤ (generateTrack seed).bounds.maxX ∧
        (generateTrack seed).bounds.minY ≤ p.y ∧
        p.y ≤ (generateTrack seed).bounds.maxY) ∧
    (∃ p ∈ (generateTrack seed).poly, p.x = (generateTrack seed).bounds.minX) ∧
    (∃ p ∈ (generateTrack seed).poly, p.x = (generateTrack seed).bounds.maxX) ∧
    (∃ p ∈ (generateTrack seed).poly, p.y = (generateTrack seed).bounds.minY) ∧
    (∃ p ∈ (generateTrack seed).poly, p.y = (generateTrack seed).bounds.maxY) := by
  have hne := generateTrack_poly_ne_nil seed
  have hxne : ((generateTrack seed).poly.map Pt.x) ≠ [] := by
    simpa using hne
  have hyne : ((generateTrack seed).poly.map Pt.y) ≠ [] := by
    simpa using hne
  have hminX : (generateTrack seed).bounds.minX = jsMin ((generateTrack seed).poly.map Pt.x) := rfl
  have hmaxX : (generateTrack seed).bounds.maxX = jsMax ((generateTrack seed).poly.map Pt.x) := rfl
  have hminY : (generateTrack seed).bounds.minY = jsMin ((generateTrack seed).poly.map Pt.y) := rfl
  have hmaxY : (generateTrack seed).bounds.maxY = jsMax ((generateTrack seed).poly.map Pt.y) := rfl
  obtain ⟨hminXmem, hminXle⟩ := jsMin_spec _ hxne
  obtain ⟨hmaxXmem, hmaxXge⟩ := jsMax_spec _ hxne
  obtain ⟨hminYmem, hminYle⟩ := jsMin_spec _ hyne
  obtain ⟨hmaxYmem, hmaxYge⟩ := jsMax_spec _ hyne
  refine ⟨?_, ?_, ?_, ?_, ?_⟩
  · intro p hp
    exact ⟨hminX ▸ hminXle _ (List.mem_map_of_mem Pt.x hp),
      hmaxX ▸ hmaxXge _ (List.mem_map_of_mem Pt.x hp),
      hminY ▸ hminYle _ (List.mem_map_of_mem Pt.y hp),
      hmaxY ▸ hmaxYge _ (List.mem_map_of_mem Pt.y hp)⟩
  · obtain ⟨p, hp, hpx⟩ := List.mem_map.mp hminXmem
    exact ⟨p, hp, by rw [hminX, hpx]⟩
  · obtain ⟨p, hp, hpx⟩ := List.mem_map.mp hmaxXmem
    exact ⟨p, hp, by rw [hmaxX, hpx]⟩
  · obtain ⟨p, hp, hpy⟩ := List.mem_map.mp hminYmem
    exact ⟨p, hp, by rw [hminY, hpy]⟩
  · obtain ⟨p, hp, hpy⟩ := List.mem_map.mp hmaxYmem
    exact ⟨p, hp, by rw [hmaxY, hpy]⟩

/-- Claim C8: the spawned car starts at the track's first polygon point
with speed 0, and its heading is the negated angle of the vector from
polygon point 0 to polygon point 1, plus π/2. -/
theorem makeCar_spawn (track : Track) (p0 p1 : Pt) (rest : List Pt)
    (h : track.poly = p0 :: p1 :: rest) :
    (makeCar track).x = p0.x ∧ (makeCar track).y = p0.y ∧
    (makeCar track).v = 0 ∧
    (makeCar track).yaw = -atan2 (p1.y - p0.y) (p1.x - p0.x) + Real.pi / 2 := by
  simp [makeCar, h]

/-- Witness for C8 on a two-point track. -/
theorem makeCar_spawn_witness :
    (Track.mk [Pt.mk 0 0, Pt.mk 1 0] (Bounds.mk 0 1 0 0) 40).poly =
      Pt.mk 0 0 :: Pt.mk 1 0 :: [] ∧
    ((makeCar (Track.mk [Pt.mk 0 0, Pt.mk 1 0] (Bounds.mk 0 1 0 0) 40)).x = (Pt.mk 0 0).x ∧
      (makeCar (Track.mk [Pt.mk 0 0, Pt.mk 1 0] (Bounds.mk 0 1 0 0) 40)).y = (Pt.mk 0 0).y ∧
      (makeCar (Track.mk [Pt.mk 0 0, Pt.mk 1 0] (Bounds.mk 0 1 0 0) 40)).v = 0 ∧
      (makeCar (Track.mk [Pt.mk 0 0, Pt.mk 1 0] (Bounds.mk 0 1 0 0) 40)).yaw =
        -atan2 ((Pt.mk 1 0).y - (Pt.mk 0 0).y) ((Pt.mk 1 0).x - (Pt.mk 0 0).x) + Real.pi / 2) :=
  ⟨rfl, makeCar_spawn _ _ _ _ rfl⟩

/-- Claim C4: a car with speed 10, heading 0 at the origin, stepped once
with dt = 1 and no keys held, ends at position (0, -9.8): damping runs
before position integration, so the post-damping speed 9.8 is
integrated. -/
theorem step_example :
    (step noKeys 1 (Car.mk 0 0 0 10 0 15)).x = 0 ∧
    (step noKeys 1 (Car.mk 0 0 0 10 0 15)).y = -9.8 ∧
    (step noKeys 1 (Car.mk 0 0 0 10 0 15)).v = 9.8 := by
  refine ⟨?_, ?_, ?_⟩ <;> simp [step, noKeys] <;> norm_num

/-- Claim C9: a step with dt = 0 and no keys held leaves position and
heading unchanged, while the speed is still multiplied by 0.98 — damping
is applied once per call, independent of dt. -/
theorem step_dt_zero (car : Car) :
    (step noKeys 0 car).x = car.x ∧ (step noKeys 0 car).y = car.y ∧
    (step noKeys 0 car).yaw = car.yaw ∧ (step noKeys 0 car).v = car.v * 0.98 := by
  simp [step, noKeys]

/-- Claim C5: with no input held and any fixed dt ≥ 0, the iterated step
keeps the speed's sign, multiplies it by 0.98 each call, and strictly
decreases its magnitude at every step. -/
theorem damping_monotone (car : Car) (dt : ℝ) (n : Nat)
    (h : car.v ≠ 0) (hdt : 0 ≤ dt) :
    ((step noKeys dt)^[n] car).v = car.v * 0.98 ^ n ∧
    (0 < car.v → 0 < ((step noKeys dt)^[n] car).v) ∧
    (car.v < 0 → ((step noKeys dt)^[n] car).v < 0) ∧
    |((step noKeys dt)^[n + 1] car).v| < |((step noKeys dt)^[n] car).v| := by
  have hstep : ∀ c : Car, (step noKeys dt c).v = c.v * 0.98 := by
    intro c
    simp [step, noKeys]
  have key : ∀ m : Nat, ((step noKeys dt)^[m] car).v = car.v * 0.98 ^ m := by
    intro m
    induction m with
    | zero => simp
    | succ m ih =>
        rw [Function.iterate_succ_apply', hstep, ih]
        ring
  have hp : (0 : ℝ) < 0.98 := by norm_num
  refine ⟨key n, ?_, ?_, ?_⟩
  · intro hpos
    rw [key n]
    exact mul_pos hpos (pow_pos hp n)
  · intro hneg
    rw [key n]
    exact mul_neg_of_neg_of_pos hneg (pow_pos hp n)
  · rw [key n, key (n + 1), abs_mul, abs_mul]
    have habs : 0 < |car.v| := abs_pos.mpr h
    have hlt : |(0.98 : ℝ) ^ (n + 1)| < |(0.98 : ℝ) ^ n| := by
      rw [abs_of_pos (pow_pos hp (n + 1)), abs_of_pos (pow_pos hp n), pow_succ]
      nlinarith [pow_pos hp n]
    exact mul_lt_mul_of_pos_left hlt habs

/-- Witness for C5: a car with speed 1, dt = 1, at step index 0. -/
theorem damping_monotone_witness :
    (Car.mk 0 0 0 1 0 15).v ≠ 0 ∧ (0 : ℝ) ≤ 1 ∧
    (((step noKeys 1)^[0] (Car.mk 0 0 0 1 0 15)).v = (Car.mk 0 0 0 1 0 15).v * 0.98 ^ 0 ∧
      (0 < (Car.mk 0 0 0 1 0 15).v → 0 < ((step noKeys 1)^[0] (Car.mk 0 0 0 1 0 15)).v) ∧
      ((Car.mk 0 0 0 1 0 15).v < 0 → ((step noKeys 1)^[0] (Car.mk 0 0 0 1 0 15)).v < 0) ∧
      |((step noKeys 1)^[0 + 1] (Car.mk 0 0 0 1 0 15)).v| <
        |((step noKeys 1)^[0] (Car.mk 0 0 0 1 0 15)).v|) :=
  ⟨by norm_num, by norm_num,
    damping_monotone (Car.mk 0 0 0 1 0 15) 1 0 (by norm_num) (by norm_num)⟩

/-- Claim C10 evaluated on the code: after mount followed by unmount of
the `Game` component, the keyboard listeners are removed but the scheduled
`requestAnimationFrame` callback is still registered — the game-loop
effect returns no cleanup, so the frame subscription is never
deregistered, contradicting the teardown requirement. -/
theorem gameUnmount_leaves_raf_registered :
    (gameUnmount (gameMount (Listeners.mk false false false))).rafPending = true ∧
    (gameUnmount (gameMount (Listeners.mk false false false))).keydown = false ∧
    (gameUnmount (gameMount (Listeners.mk false false false))).keyup = false :=
  ⟨rfl, rfl, rfl⟩

end Game
